import Mathlib

/-!
Verification of the AI_Trading_Sigma trading-engine core against its
specification.  The repository ships the engine's documentation
(README decision-flow, SIGNAL_ARCHITECTURE.md, CIRCUIT_BREAKER_GUIDE.md)
and the React frontend; the Python engine itself is not part of the
source tree, so the engine components below are modelled from the spec's
wording.  The frontend WebSocket reconnection logic
(frontend/src/services/websocket.js) is embedded directly from the code.
All numeric quantities are modelled as rationals.
-/

namespace Sigma

/-- Trading actions a signal can propose. -/
inductive Action
  | enterLong
  | enterShort
  | wait
deriving DecidableEq, Repr

/-- Probabilistic-layer signal: proposed action and confidence in [0,1]. -/
structure Signal where
  action : Action
  confidence : ℚ
deriving DecidableEq, Repr

/-- Rule-layer validation verdict: validity flag and confirmation percentage
in [0,100]. -/
structure ValidationResult where
  isValid : Bool
  confirmationPct : ℚ
deriving DecidableEq, Repr

/-- Final merged decision owned by the orchestrator. -/
structure FinalDecision where
  action : Action
  confidence : ℚ
deriving DecidableEq, Repr

/-- Modelled from the spec: the Signal Orchestrator's five-rule decision
matrix (spec §4.3, SIGNAL_ARCHITECTURE.md "Decision Matrix"); the Python
orchestrator module is not in the source tree.  Rules in order of
precedence: (1) probabilistic WAIT stays WAIT; (2) valid and
confirmation ≥ 50%: execute, confidence × 1.10 bounded to 1.0; (3) valid
and confirmation in [30,50): execute unchanged; (4) invalid but
probabilistic confidence > 0.70: execute, confidence × 0.80;
(5) otherwise WAIT, confidence × 0.50. -/
def orchestrate (sig : Signal) (v : ValidationResult) : FinalDecision :=
  if sig.action = Action.wait then
    { action := Action.wait, confidence := sig.confidence }
  else if v.isValid ∧ 50 ≤ v.confirmationPct then
    { action := sig.action, confidence := min 1 (sig.confidence * (11 / 10)) }
  else if v.isValid ∧ 30 ≤ v.confirmationPct then
    { action := sig.action, confidence := sig.confidence }
  else if ¬v.isValid ∧ 7 / 10 < sig.confidence then
    { action := sig.action, confidence := sig.confidence * (4 / 5) }
  else
    { action := Action.wait, confidence := sig.confidence * (1 / 2) }

/-- Rolling expectancy statistics handed to the sizing engine once the
sample is sufficient (spec §3 ExpectancyStats). -/
structure ExpectancyStats where
  winRate : ℚ
  payoffRatio : ℚ
  expectancy : ℚ
  sampleSize : ℕ
deriving DecidableEq, Repr

/-- The empirical Kelly fraction
`(win_rate × payoff_ratio − (1 − win_rate)) / payoff_ratio` (spec §4.6,
README "Proper Kelly Criterion" snippet). -/
def kellyFormula (winRate payoffRatio : ℚ) : ℚ :=
  (winRate * payoffRatio - (1 - winRate)) / payoffRatio

/-- Which sizing method produced a SizingDecision (spec §3, §4.6). -/
inductive SizingMethod
  | empiricalKelly
  | exploration
deriving DecidableEq, Repr

/-- Sizing engine output (spec §3 SizingDecision). -/
structure SizingDecision where
  method : SizingMethod
  kellyFraction : ℚ
  adjusted : ℚ
  finalSize : ℚ
deriving DecidableEq, Repr

/-- Modelled from the spec: the Position-Sizing Engine (spec §4.6, README
"POSITION SIZING" decision-flow block); the Python risk-manager module is
not in the source tree.  With Kelly inputs available: if the Kelly
fraction is ≤ 0 or the expectancy is ≤ 0 the size is exactly 0 (no
minimum floor); otherwise `adjusted = kelly × 0.25`.  Without Kelly
inputs: exploration mode with the flat `adjusted = 0.005`.  Either way
`final_size = adjusted × regime_multiplier × volatility_penalty`, capped
at the configured maximum risk per trade.  The orchestrator confidence is
received but does not enter the size formula (spec gives it no term). -/
def positionSize (inputs : Option ExpectancyStats)
    (regimeMult volPenalty confidence maxRisk : ℚ) : SizingDecision :=
  match inputs with
  | none =>
      { method := SizingMethod.exploration
        kellyFraction := 0
        adjusted := 1 / 200
        finalSize := min maxRisk (1 / 200 * regimeMult * volPenalty) }
  | some stats =>
      if kellyFormula stats.winRate stats.payoffRatio ≤ 0 ∨ stats.expectancy ≤ 0 then
        { method := SizingMethod.empiricalKelly
          kellyFraction := kellyFormula stats.winRate stats.payoffRatio
          adjusted := 0
          finalSize := 0 }
      else
        { method := SizingMethod.empiricalKelly
          kellyFraction := kellyFormula stats.winRate stats.payoffRatio
          adjusted := kellyFormula stats.winRate stats.payoffRatio * (1 / 4)
          finalSize := min maxRisk
            (kellyFormula stats.winRate stats.payoffRatio * (1 / 4) *
              regimeMult * volPenalty) }

/-- Modelled from the spec: winning trades of a rolling window of closed
trades, each trade given by its realized pnl (spec §4.5); the Python
expectancy-engine module is not in the source tree. -/
def wins (pnls : List ℚ) : List ℚ :=
  pnls.filter (fun p => 0 < p)

/-- Modelled from the spec: losing trades of the rolling window
(spec §4.5). -/
def losses (pnls : List ℚ) : List ℚ :=
  pnls.filter (fun p => p < 0)

/-- Modelled from the spec: average winning pnl over the window
(spec §4.5). -/
def avgWin (pnls : List ℚ) : ℚ :=
  (wins pnls).sum / (wins pnls).length

/-- Modelled from the spec: average loss taken as positive magnitude
(spec §4.5). -/
def avgLossMag (pnls : List ℚ) : ℚ :=
  ((losses pnls).map (fun p => -p)).sum / (losses pnls).length

/-- Modelled from the spec: `win_rate = wins / total` (spec §4.5). -/
def winRateOf (pnls : List ℚ) : ℚ :=
  (wins pnls).length / pnls.length

/-- Modelled from the spec: `payoff_ratio = avg_win / avg_loss`, with the
zero-losing-trades window special-cased instead of divided by zero
(spec §4.5); the division is taken only in the branch where at least one
losing trade exists. -/
def payoffRatioOf (pnls : List ℚ) : Option ℚ :=
  if losses pnls = [] then none
  else some (avgWin pnls / avgLossMag pnls)

/-- Modelled from the spec:
`expectancy = win_rate × avg_win − (1 − win_rate) × avg_loss`
(spec §4.5). -/
def expectancyOf (pnls : List ℚ) : ℚ :=
  winRateOf pnls * avgWin pnls - (1 - winRateOf pnls) * avgLossMag pnls

/-- Modelled from the spec: the Expectancy Engine's Kelly-input report
(spec §4.5, README "EXPECTANCY CHECK" block): with fewer than 30 closed
trades in the window the inputs are withheld ("insufficient sample",
`none`); with no losing trade the payoff ratio is undefined and the
inputs are likewise withheld rather than divided by zero. -/
def kellyInputs (pnls : List ℚ) : Option ExpectancyStats :=
  if pnls.length < 30 then none
  else
    match payoffRatioOf pnls with
    | none => none
    | some pr =>
        some { winRate := winRateOf pnls
               payoffRatio := pr
               expectancy := expectancyOf pnls
               sampleSize := pnls.length }

/-- Current portfolio exposure touched by a candidate trade, each entry a
fraction of account equity (spec §3 PortfolioState): the candidate's
single asset, its correlated group, and its sector. -/
structure PortfolioExposure where
  asset : ℚ
  group : ℚ
  sector : ℚ
deriving DecidableEq, Repr

/-- Single-asset exposure cap: 40% of equity (spec §4.7). -/
def singleAssetCap : ℚ := 2 / 5

/-- Correlated-group exposure cap: 60% of equity (spec §4.7). -/
def correlatedGroupCap : ℚ := 3 / 5

/-- Sector exposure cap: 50% of equity (spec §4.7). -/
def sectorCap : ℚ := 1 / 2

/-- Modelled from the spec: remaining headroom before any of the three
portfolio caps is hit (spec §4.7); the Python portfolio-risk-manager
module is not in the source tree. -/
def headroom (e : PortfolioExposure) : ℚ :=
  min (singleAssetCap - e.asset) (min (correlatedGroupCap - e.group) (sectorCap - e.sector))

/-- Modelled from the spec: the Portfolio Risk Manager's treatment of a
candidate size (spec §4.7): reject the trade entirely (size 0) when the
remaining headroom is ≤ 0, otherwise scale the size down to the
headroom. -/
def portfolioProcess (e : PortfolioExposure) (candidate : ℚ) : ℚ :=
  if headroom e ≤ 0 then 0 else min candidate (headroom e)

/-- The seven exit reasons, in the Exit Manager's fixed priority order
(spec §4.10, README "7 Exit Conditions"). -/
inductive ExitReason
  | stopLoss
  | takeProfit
  | trailingStop
  | timeLimit
  | regimeFlip
  | portfolioRebalance
  | thesisInvalidation
deriving DecidableEq, Repr, Fintype

/-- Which close conditions hold for an open position on this cycle
(spec §4.10); each flag is the outcome of the corresponding price/time
check. -/
structure ExitConditions where
  stopLossHit : Bool
  takeProfitHit : Bool
  trailingStopHit : Bool
  timeLimitExceeded : Bool
  regimeFlipped : Bool
  portfolioOneSided : Bool
  thesisInvalidated : Bool
deriving DecidableEq, Repr

/-- Whether the condition matching a given exit reason holds this cycle. -/
def conditionHolds (c : ExitConditions) : ExitReason → Bool
  | ExitReason.stopLoss => c.stopLossHit
  | ExitReason.takeProfit => c.takeProfitHit
  | ExitReason.trailingStop => c.trailingStopHit
  | ExitReason.timeLimit => c.timeLimitExceeded
  | ExitReason.regimeFlip => c.regimeFlipped
  | ExitReason.portfolioRebalance => c.portfolioOneSided
  | ExitReason.thesisInvalidation => c.thesisInvalidated

/-- Position of an exit reason in the fixed priority order, 0 first. -/
def exitPriority : ExitReason → ℕ
  | ExitReason.stopLoss => 0
  | ExitReason.takeProfit => 1
  | ExitReason.trailingStop => 2
  | ExitReason.timeLimit => 3
  | ExitReason.regimeFlip => 4
  | ExitReason.portfolioRebalance => 5
  | ExitReason.thesisInvalidation => 6

/-- Modelled from the spec: the Exit Manager's per-cycle close decision
(spec §4.10, README "Dynamic Exit Manager" checklist); the Python
exit-manager module is not in the source tree.  Conditions are evaluated
in the fixed priority order stop-loss, take-profit, trailing stop, time
limit, regime flip, portfolio one-sidedness, thesis invalidation; the
first match wins and at most one reason is ever returned. -/
def exitDecision (c : ExitConditions) : Option ExitReason :=
  if c.stopLossHit then some ExitReason.stopLoss
  else if c.takeProfitHit then some ExitReason.takeProfit
  else if c.trailingStopHit then some ExitReason.trailingStop
  else if c.timeLimitExceeded then some ExitReason.timeLimit
  else if c.regimeFlipped then some ExitReason.regimeFlip
  else if c.portfolioOneSided then some ExitReason.portfolioRebalance
  else if c.thesisInvalidated then some ExitReason.thesisInvalidation
  else none

/-- Circuit-breaker severity levels, in increasing order
(spec §4.9, CIRCUIT_BREAKER_GUIDE.md levels 0–4). -/
inductive BLevel
  | closed
  | alert
  | throttle
  | halt
  | shutdown
deriving DecidableEq, Repr

/-- Numeric severity of a breaker level, used to pick the stricter of two
demanded states. -/
def severity : BLevel → ℕ
  | BLevel.closed => 0
  | BLevel.alert => 1
  | BLevel.throttle => 2
  | BLevel.halt => 3
  | BLevel.shutdown => 4

/-- The stricter of two breaker levels (spec §4.9: "whichever input
demands the stricter state wins"). -/
def stricter (a b : BLevel) : BLevel :=
  if severity a ≤ severity b then b else a

/-- Breaker level demanded by a consecutive-order-failure count
(CIRCUIT_BREAKER_GUIDE.md default thresholds: 2 → ALERT, 3 → THROTTLE,
5 → HALT, 10 → SHUTDOWN). -/
def failureLevel (n : ℕ) : BLevel :=
  if 10 ≤ n then BLevel.shutdown
  else if 5 ≤ n then BLevel.halt
  else if 3 ≤ n then BLevel.throttle
  else if 2 ≤ n then BLevel.alert
  else BLevel.closed

/-- Cooldown (seconds of continuously healthy metrics) required before a
level auto-recovers; `none` means no automatic recovery exists
(CIRCUIT_BREAKER_GUIDE.md: ALERT 60s, THROTTLE 300s, HALT 900s,
SHUTDOWN manual only). -/
def cooldownSeconds : BLevel → Option ℕ
  | BLevel.closed => none
  | BLevel.alert => some 60
  | BLevel.throttle => some 300
  | BLevel.halt => some 900
  | BLevel.shutdown => none

/-- Breaker state (spec §3 BreakerState): current level, consecutive
order-failure count, and seconds of healthy metrics accumulated toward
the current level's cooldown. -/
structure BreakerState where
  level : BLevel
  consecutiveFailures : ℕ
  healthySeconds : ℕ
deriving DecidableEq, Repr

/-- Inputs reported to the Circuit Breaker between cycles: an order
failure, an order success, a metrics/degradation report demanding a
level, or a stretch of seconds with healthy metrics.  Manual reset is a
separate external operation, deliberately not an input here
(spec §4.9: SHUTDOWN recovery is manual only). -/
inductive BreakerInput
  | orderFailure
  | orderSuccess
  | demand (lvl : BLevel)
  | healthyTick (secs : ℕ)
deriving DecidableEq, Repr

/-- Modelled from the spec: one transition of the Circuit Breaker state
machine (spec §4.9, CIRCUIT_BREAKER_GUIDE.md); the Python
circuit-breaker module is not in the source tree.  A SHUTDOWN state is
frozen: no reported input changes it (recovery is manual only).
Otherwise a failure increments the consecutive-failure count and
escalates to the stricter of the current level and the count's demanded
level; a success clears the count; a demanded level escalates likewise;
healthy seconds accumulate toward the current level's cooldown and
recover the breaker to CLOSED once the full cooldown has elapsed.
Failures and demands restart the cooldown clock. -/
def breakerStep (s : BreakerState) (i : BreakerInput) : BreakerState :=
  if s.level = BLevel.shutdown then s
  else
    match i with
    | BreakerInput.orderFailure =>
        { level := stricter s.level (failureLevel (s.consecutiveFailures + 1))
          consecutiveFailures := s.consecutiveFailures + 1
          healthySeconds := 0 }
    | BreakerInput.orderSuccess =>
        { level := s.level
          consecutiveFailures := 0
          healthySeconds := s.healthySeconds }
    | BreakerInput.demand lvl =>
        { level := stricter s.level lvl
          consecutiveFailures := s.consecutiveFailures
          healthySeconds := 0 }
    | BreakerInput.healthyTick secs =>
        match cooldownSeconds s.level with
        | none => s
        | some cd =>
            if cd ≤ s.healthySeconds + secs then
              { level := BLevel.closed
                consecutiveFailures := s.consecutiveFailures
                healthySeconds := 0 }
            else
              { level := s.level
                consecutiveFailures := s.consecutiveFailures
                healthySeconds := s.healthySeconds + secs }

/-- Fold a sequence of reported inputs through the breaker. -/
def breakerRun (s : BreakerState) : List BreakerInput → BreakerState
  | [] => s
  | i :: is => breakerRun (breakerStep s i) is

/-- Apply `n` consecutive order failures. -/
def applyFailures : ℕ → BreakerState → BreakerState
  | 0, s => s
  | n + 1, s => applyFailures n (breakerStep s BreakerInput.orderFailure)

/-- Modelled from the spec: whether `evaluateCycle` may open a new entry
under the current breaker state for a signal of the given confidence
(spec §4.9 table: CLOSED/ALERT unrestricted, THROTTLE only
confidence ≥ 0.7, HALT and SHUTDOWN blocked). -/
def entryAllowed (s : BreakerState) (confidence : ℚ) : Bool :=
  match s.level with
  | BLevel.closed => true
  | BLevel.alert => true
  | BLevel.throttle => decide (7 / 10 ≤ confidence)
  | BLevel.halt => false
  | BLevel.shutdown => false

end Sigma

namespace WS

/-- `maxReconnectAttempts` from the WebSocketService constructor
(frontend/src/services/websocket.js). -/
def maxReconnectAttempts : ℕ := 5

/-- The reconnection-relevant state of WebSocketService
(frontend/src/services/websocket.js constructor): the current
`reconnectAttempts` counter and the `shouldReconnect` flag. -/
structure WSState where
  reconnectAttempts : ℕ
  shouldReconnect : Bool
deriving DecidableEq, Repr

/-- Constructor state: zero attempts, reconnection enabled. -/
def initialState : WSState :=
  { reconnectAttempts := 0, shouldReconnect := true }

/-- The socket events the service reacts to: `onopen` and `onclose`. -/
inductive WSEvent
  | onOpen
  | onClose
deriving DecidableEq, Repr

/-- One event-handler step of WebSocketService, returning the new state
and whether a `connect()` call was scheduled: `onopen` resets
`reconnectAttempts` to 0; `onclose` schedules a reconnect (incrementing
the counter) exactly when `shouldReconnect` is set and
`reconnectAttempts < maxReconnectAttempts`
(frontend/src/services/websocket.js lines 37–43 and 65–77). -/
def stepEvent (s : WSState) : WSEvent → WSState × Bool
  | WSEvent.onOpen =>
      ({ reconnectAttempts := 0, shouldReconnect := s.shouldReconnect }, false)
  | WSEvent.onClose =>
      if s.shouldReconnect ∧ s.reconnectAttempts < maxReconnectAttempts then
        ({ reconnectAttempts := s.reconnectAttempts + 1
           shouldReconnect := s.shouldReconnect }, true)
      else
        (s, false)

/-- `disconnect()` clears `shouldReconnect`
(frontend/src/services/websocket.js lines 88–98). -/
def disconnect (s : WSState) : WSState :=
  { reconnectAttempts := s.reconnectAttempts, shouldReconnect := false }

/-- Run a sequence of socket events, counting how many `connect()` calls
the onclose handler schedules along the way. -/
def runEvents (s : WSState) : List WSEvent → WSState × ℕ
  | [] => (s, 0)
  | e :: es =>
      let r := stepEvent s e
      let rest := runEvents r.1 es
      (rest.1, (if r.2 then 1 else 0) + rest.2)

end WS

namespace Sigma

/-- C1: for every sizing request with Kelly inputs available, the
Position-Sizing Engine returns `final_size = 0` (no minimum floor)
whenever the empirical Kelly fraction is ≤ 0 or the expectancy is ≤ 0,
for every orchestrator confidence value. -/
theorem sizing_zero_without_edge (stats : ExpectancyStats)
    (regimeMult volPenalty confidence maxRisk : ℚ)
    (h : kellyFormula stats.winRate stats.payoffRatio ≤ 0 ∨ stats.expectancy ≤ 0) :
    (positionSize (some stats) regimeMult volPenalty confidence maxRisk).finalSize = 0 := by
  simp only [positionSize]
  rw [if_pos h]

theorem sizing_zero_without_edge_witness :
    (positionSize (some ⟨68 / 100, 215 / 100, -1, 45⟩)
      (13 / 10) 1 (95 / 100) (2 / 100)).finalSize = 0 :=
  sizing_zero_without_edge ⟨68 / 100, 215 / 100, -1, 45⟩ (13 / 10) 1 (95 / 100) (2 / 100)
    (Or.inr (by norm_num))

/-- C6: for every rolling window with fewer than 30 closed trades, the
Expectancy Engine withholds the Kelly inputs and the Position-Sizing
Engine uses exploration mode with the flat adjusted risk fraction 0.005,
regardless of what the Kelly formula would yield on the small sample. -/
theorem exploration_under_thirty (pnls : List ℚ)
    (regimeMult volPenalty confidence maxRisk : ℚ)
    (h : pnls.length < 30) :
    kellyInputs pnls = none ∧
    (positionSize (kellyInputs pnls) regimeMult volPenalty confidence maxRisk).method =
      SizingMethod.exploration ∧
    (positionSize (kellyInputs pnls) regimeMult volPenalty confidence maxRisk).adjusted =
      1 / 200 := by
  have hnone : kellyInputs pnls = none := by
    unfold kellyInputs
    rw [if_pos h]
  refine ⟨hnone, ?_, ?_⟩ <;> rw [hnone] <;> rfl

theorem exploration_under_thirty_witness :
    kellyInputs [(5 : ℚ), -2, 3] = none ∧
    (positionSize (kellyInputs [(5 : ℚ), -2, 3]) (4 / 10) 1 (95 / 100) (2 / 100)).method =
      SizingMethod.exploration ∧
    (positionSize (kellyInputs [(5 : ℚ), -2, 3]) (4 / 10) 1 (95 / 100) (2 / 100)).adjusted =
      1 / 200 :=
  exploration_under_thirty [(5 : ℚ), -2, 3] (4 / 10) 1 (95 / 100) (2 / 100) (by norm_num)

/-- C9 counterexample: at win_rate = 0.68, payoff_ratio = 2.15,
sample_size = 45 the Kelly computation yields exactly 571/1075
≈ 0.5312, which is not 0.523 to the claim's stated precision, and the
adjusted fraction is exactly 571/4300 ≈ 0.1328, which is not 0.131 to
the stated precision. -/
theorem kelly_scenario_not_0523 :
    (positionSize (some ⟨68 / 100, 215 / 100, 37 / 2, 45⟩) 1 1 (95 / 100) 1).kellyFraction =
      571 / 1075 ∧
    (positionSize (some ⟨68 / 100, 215 / 100, 37 / 2, 45⟩) 1 1 (95 / 100) 1).adjusted =
      571 / 4300 ∧
    ¬|(571 : ℚ) / 1075 - 523 / 1000| ≤ 1 / 2000 ∧
    ¬|(571 : ℚ) / 4300 - 131 / 1000| ≤ 1 / 2000 := by
  refine ⟨?_, ?_, by norm_num [abs_le], by norm_num [abs_le]⟩ <;>
    norm_num [positionSize, kellyFormula]

/-- C9 amended: at win_rate = 0.68, payoff_ratio = 2.15, sample_size = 45
the Kelly computation yields kelly = 571/1075 ≈ 0.531 and the adjusted
fraction kelly × 0.25 = 571/4300 ≈ 0.133, before the regime multiplier
and volatility penalty are applied. -/
theorem kelly_scenario_exact :
    (positionSize (some ⟨68 / 100, 215 / 100, 37 / 2, 45⟩) 1 1 (95 / 100) 1).kellyFraction =
      571 / 1075 ∧
    (positionSize (some ⟨68 / 100, 215 / 100, 37 / 2, 45⟩) 1 1 (95 / 100) 1).adjusted =
      571 / 4300 ∧
    (positionSize (some ⟨68 / 100, 215 / 100, 37 / 2, 45⟩) 1 1 (95 / 100) 1).method =
      SizingMethod.empiricalKelly ∧
    |(571 : ℚ) / 1075 - 531 / 1000| ≤ 1 / 2000 ∧
    |(571 : ℚ) / 4300 - 133 / 1000| ≤ 1 / 2000 := by
  refine ⟨?_, ?_, ?_, by norm_num [abs_le], by norm_num [abs_le]⟩ <;>
    norm_num [positionSize, kellyFormula]

/-- C5: the Exit Manager evaluates close conditions in the fixed
priority order stop-loss, take-profit, trailing stop, time limit,
regime flip, portfolio one-sidedness, thesis invalidation: the decision
is `some r` exactly when `r`'s condition holds and no strictly
higher-priority condition does, it is `none` exactly when no condition
holds, and at most one exit reason is ever applied to one close. -/
theorem exit_priority_first_match (c : ExitConditions) :
    (∀ r : ExitReason, exitDecision c = some r ↔
      (conditionHolds c r = true ∧
        ∀ q : ExitReason, exitPriority q < exitPriority r → conditionHolds c q = false)) ∧
    (exitDecision c = none ↔ ∀ r : ExitReason, conditionHolds c r = false) ∧
    (∀ r q : ExitReason, exitDecision c = some r → exitDecision c = some q → r = q) := by
  rcases c with ⟨a, b, t, d, e, f, g⟩
  cases a <;> cases b <;> cases t <;> cases d <;> cases e <;> cases f <;> cases g <;> decide

theorem exit_priority_first_match_witness :
    exitDecision ⟨true, true, false, false, true, false, true⟩ = some ExitReason.stopLoss ∧
    exitDecision ⟨false, false, false, false, false, false, false⟩ = none :=
  ⟨((exit_priority_first_match ⟨true, true, false, false, true, false, true⟩).1
      ExitReason.stopLoss).mpr (by decide),
   (exit_priority_first_match ⟨false, false, false, false, false, false, false⟩).2.1.mpr
      (by decide)⟩

/-- C7: on a rolling window with zero losing trades the payoff-ratio
computation takes the special-cased branch and reports no value; the
division `avg_win / avg_loss` is taken only when at least one losing
trade exists, and there its denominator (the average loss magnitude) is
strictly positive — never a division by zero. -/
theorem payoff_ratio_no_div_zero (pnls : List ℚ) :
    (losses pnls = [] → payoffRatioOf pnls = none) ∧
    (losses pnls ≠ [] →
      payoffRatioOf pnls = some (avgWin pnls / avgLossMag pnls) ∧
      0 < avgLossMag pnls) := by
  constructor
  · intro h
    unfold payoffRatioOf
    rw [if_pos h]
  · intro h
    refine ⟨by unfold payoffRatioOf; rw [if_neg h], ?_⟩
    unfold avgLossMag
    apply div_pos
    · apply List.sum_pos
      · intro x hx
        rcases List.mem_map.mp hx with ⟨p, hp, rfl⟩
        have hneg : p < 0 := by simpa using (List.mem_filter.mp hp).2
        linarith
      · simp only [ne_eq, List.map_eq_nil_iff]
        exact h
    · exact_mod_cast List.length_pos.mpr h

theorem breakerStep_frozen (s : BreakerState) (i : BreakerInput)
    (h : s.level = BLevel.shutdown) : breakerStep s i = s := by
  unfold breakerStep
  rw [if_pos h]

theorem breakerRun_frozen (inputs : List BreakerInput) (s : BreakerState)
    (h : s.level = BLevel.shutdown) : breakerRun s inputs = s := by
  induction inputs with
  | nil => rfl
  | cons i is ih =>
      show breakerRun (breakerStep s i) is = s
      rw [breakerStep_frozen s i h]
      exact ih

theorem applyFailures_frozen (n : ℕ) (s : BreakerState)
    (h : s.level = BLevel.shutdown) : applyFailures n s = s := by
  induction n with
  | zero => rfl
  | succ n ih =>
      show applyFailures n (breakerStep s BreakerInput.orderFailure) = s
      rw [breakerStep_frozen s _ h]
      exact ih

theorem stricter_shutdown (a : BLevel) : stricter a BLevel.shutdown = BLevel.shutdown := by
  cases a <;> rfl

theorem breakerStep_failure_shutdown (s : BreakerState)
    (h : 10 ≤ s.consecutiveFailures + 1) :
    (breakerStep s BreakerInput.orderFailure).level = BLevel.shutdown := by
  unfold breakerStep
  split_ifs with hs
  · exact hs
  · show stricter s.level (failureLevel (s.consecutiveFailures + 1)) = BLevel.shutdown
    unfold failureLevel
    rw [if_pos h]
    exact stricter_shutdown _

theorem breakerStep_failure_count (s : BreakerState)
    (hs : ¬s.level = BLevel.shutdown) :
    (breakerStep s BreakerInput.orderFailure).consecutiveFailures =
      s.consecutiveFailures + 1 := by
  unfold breakerStep
  rw [if_neg hs]

theorem applyFailures_shutdown (n : ℕ) :
    ∀ s : BreakerState, 1 ≤ n → 10 ≤ s.consecutiveFailures + n →
      (applyFailures n s).level = BLevel.shutdown := by
  induction n with
  | zero => intro s h1 _; omega
  | succ n ih =>
      intro s _ h10
      show (applyFailures n (breakerStep s BreakerInput.orderFailure)).level = BLevel.shutdown
      by_cases hs : s.level = BLevel.shutdown
      · rw [breakerStep_frozen s _ hs, applyFailures_frozen n s hs]
        exact hs
      · rcases Nat.eq_zero_or_pos n with hn | hn
        · subst hn
          exact breakerStep_failure_shutdown s (by omega)
        · apply ih (breakerStep s BreakerInput.orderFailure) hn
          rw [breakerStep_failure_count s hs]
          omega

theorem payoff_ratio_no_div_zero_witness :
    payoffRatioOf [(1 : ℚ), 2] = none ∧
    (payoffRatioOf [(4 : ℚ), -2] =
        some (avgWin [(4 : ℚ), -2] / avgLossMag [(4 : ℚ), -2]) ∧
      0 < avgLossMag [(4 : ℚ), -2]) :=
  ⟨(payoff_ratio_no_div_zero [(1 : ℚ), 2]).1 (by decide),
   (payoff_ratio_no_div_zero [(4 : ℚ), -2]).2 (by decide)⟩

/-- C8: for every input Signal with confidence in [0,1] and every
ValidationResult, the FinalDecision's confidence stays in [0,1] after
every orchestrator adjustment (boost, penalty, downgrade). -/
theorem orchestrator_confidence_bounded (sig : Signal) (v : ValidationResult)
    (h0 : 0 ≤ sig.confidence) (h1 : sig.confidence ≤ 1) :
    0 ≤ (orchestrate sig v).confidence ∧ (orchestrate sig v).confidence ≤ 1 := by
  unfold orchestrate
  split_ifs <;> simp only [] <;> constructor
  · exact h0
  · exact h1
  · exact le_min (by norm_num) (by nlinarith)
  · exact min_le_left _ _
  · exact h0
  · exact h1
  · nlinarith
  · nlinarith
  · nlinarith
  · nlinarith

/-- C2: the orchestrator applies the five-rule decision matrix in exact
precedence — (1) probabilistic WAIT stays WAIT and the validator is not
consulted; (2) valid with confirmation ≥ 50% executes with confidence
× 1.10 bounded to 1.0; (3) valid with confirmation in [30,50) executes
unchanged; (4) invalid with probabilistic confidence > 0.70 executes
with confidence × 0.80; (5) otherwise WAIT with confidence × 0.50 — and
it never emits an ENTER action the probabilistic layer did not
propose. -/
theorem orchestrator_matrix (sig : Signal) (v w : ValidationResult) :
    (sig.action = Action.wait →
      orchestrate sig v = ⟨Action.wait, sig.confidence⟩ ∧
      orchestrate sig v = orchestrate sig w) ∧
    (sig.action ≠ Action.wait → v.isValid = true → 50 ≤ v.confirmationPct →
      orchestrate sig v = ⟨sig.action, min 1 (sig.confidence * (11 / 10))⟩) ∧
    (sig.action ≠ Action.wait → v.isValid = true →
        30 ≤ v.confirmationPct → v.confirmationPct < 50 →
      orchestrate sig v = ⟨sig.action, sig.confidence⟩) ∧
    (sig.action ≠ Action.wait → v.isValid = false → 7 / 10 < sig.confidence →
      orchestrate sig v = ⟨sig.action, sig.confidence * (4 / 5)⟩) ∧
    (sig.action ≠ Action.wait → ¬(v.isValid = true ∧ 30 ≤ v.confirmationPct) →
        ¬(v.isValid = false ∧ 7 / 10 < sig.confidence) →
      orchestrate sig v = ⟨Action.wait, sig.confidence * (1 / 2)⟩) ∧
    ((orchestrate sig v).action ≠ Action.wait → (orchestrate sig v).action = sig.action) := by
  refine ⟨?_, ?_, ?_, ?_, ?_, ?_⟩
  · intro hw
    constructor <;> simp [orchestrate, hw]
  · intro hne hv hc
    unfold orchestrate
    rw [if_neg hne, if_pos ⟨hv, hc⟩]
  · intro hne hv hc hlt
    unfold orchestrate
    rw [if_neg hne, if_neg (fun hx => absurd hx.2 (not_le.mpr hlt)), if_pos ⟨hv, hc⟩]
  · intro hne hv hconf
    unfold orchestrate
    rw [if_neg hne, if_neg (fun hx => by simp [hv] at hx), if_neg (fun hx => by simp [hv] at hx),
      if_pos ⟨by simp [hv], hconf⟩]
  · intro hne h30 hov
    unfold orchestrate
    rw [if_neg hne, if_neg (fun hx => h30 ⟨hx.1, by linarith [hx.2]⟩), if_neg h30,
      if_neg (fun hx => hov ⟨by simpa using hx.1, hx.2⟩)]
  · intro hact
    unfold orchestrate at hact ⊢
    split_ifs at hact ⊢ <;> simp_all

theorem orchestrator_matrix_witness :
    orchestrate ⟨Action.wait, 1 / 2⟩ ⟨false, 0⟩ = ⟨Action.wait, 1 / 2⟩ ∧
    orchestrate ⟨Action.enterLong, 73 / 100⟩ ⟨true, 70⟩ =
      ⟨Action.enterLong, min 1 (73 / 100 * (11 / 10))⟩ ∧
    orchestrate ⟨Action.enterLong, 73 / 100⟩ ⟨true, 40⟩ = ⟨Action.enterLong, 73 / 100⟩ ∧
    orchestrate ⟨Action.enterShort, 8 / 10⟩ ⟨false, 70⟩ =
      ⟨Action.enterShort, 8 / 10 * (4 / 5)⟩ ∧
    orchestrate ⟨Action.enterLong, 1 / 2⟩ ⟨false, 10⟩ = ⟨Action.wait, 1 / 2 * (1 / 2)⟩ :=
  ⟨((orchestrator_matrix ⟨Action.wait, 1 / 2⟩ ⟨false, 0⟩ ⟨false, 0⟩).1 rfl).1,
   (orchestrator_matrix ⟨Action.enterLong, 73 / 100⟩ ⟨true, 70⟩ ⟨true, 70⟩).2.1
     (by decide) rfl (by norm_num),
   (orchestrator_matrix ⟨Action.enterLong, 73 / 100⟩ ⟨true, 40⟩ ⟨true, 40⟩).2.2.1
     (by decide) rfl (by norm_num) (by norm_num),
   (orchestrator_matrix ⟨Action.enterShort, 8 / 10⟩ ⟨false, 70⟩ ⟨false, 70⟩).2.2.2.1
     (by decide) rfl (by norm_num),
   (orchestrator_matrix ⟨Action.enterLong, 1 / 2⟩ ⟨false, 10⟩ ⟨false, 10⟩).2.2.2.2.1
     (by decide) (by simp) (by norm_num)⟩

/-- C4: whenever the pre-trade exposures respect the portfolio caps, the
Portfolio Risk Manager's processed size (scaled to the remaining
headroom, or 0 when headroom is ≤ 0) keeps every post-trade exposure
within the caps: single asset ≤ 40%, correlated group ≤ 60%,
sector ≤ 50% of equity; in particular a trade with no headroom is
rejected outright. -/
theorem portfolio_caps_respected (e : PortfolioExposure) (candidate : ℚ)
    (ha : e.asset ≤ singleAssetCap) (hg : e.group ≤ correlatedGroupCap)
    (hs : e.sector ≤ sectorCap) :
    (headroom e ≤ 0 → portfolioProcess e candidate = 0) ∧
    e.asset + portfolioProcess e candidate ≤ singleAssetCap ∧
    e.group + portfolioProcess e candidate ≤ correlatedGroupCap ∧
    e.sector + portfolioProcess e candidate ≤ sectorCap := by
  unfold portfolioProcess
  split_ifs with h
  · exact ⟨fun _ => rfl, by linarith, by linarith, by linarith⟩
  · have hA : min candidate (headroom e) ≤ singleAssetCap - e.asset :=
      (min_le_right _ _).trans (min_le_left _ _)
    have hG : min candidate (headroom e) ≤ correlatedGroupCap - e.group :=
      (min_le_right _ _).trans ((min_le_right _ _).trans (min_le_left _ _))
    have hS : min candidate (headroom e) ≤ sectorCap - e.sector :=
      (min_le_right _ _).trans ((min_le_right _ _).trans (min_le_right _ _))
    exact ⟨fun hx => absurd hx h, by linarith, by linarith, by linarith⟩

theorem portfolio_caps_respected_witness :
    (headroom ⟨3 / 10, 1 / 2, 1 / 5⟩ ≤ 0 →
      portfolioProcess ⟨3 / 10, 1 / 2, 1 / 5⟩ (1 / 5) = 0) ∧
    (3 : ℚ) / 10 + portfolioProcess ⟨3 / 10, 1 / 2, 1 / 5⟩ (1 / 5) ≤ singleAssetCap ∧
    (1 : ℚ) / 2 + portfolioProcess ⟨3 / 10, 1 / 2, 1 / 5⟩ (1 / 5) ≤ correlatedGroupCap ∧
    (1 : ℚ) / 5 + portfolioProcess ⟨3 / 10, 1 / 2, 1 / 5⟩ (1 / 5) ≤ sectorCap :=
  portfolio_caps_respected ⟨3 / 10, 1 / 2, 1 / 5⟩ (1 / 5)
    (by norm_num [singleAssetCap]) (by norm_num [correlatedGroupCap])
    (by norm_num [sectorCap])

theorem orchestrator_confidence_bounded_witness :
    0 ≤ (orchestrate { action := Action.enterLong, confidence := 73 / 100 }
          { isValid := true, confirmationPct := 70 }).confidence ∧
    (orchestrate { action := Action.enterLong, confidence := 73 / 100 }
          { isValid := true, confirmationPct := 70 }).confidence ≤ 1 :=
  orchestrator_confidence_bounded _ _ (by norm_num) (by norm_num)

/-- C3: ten consecutive order failures drive the Circuit Breaker to
SHUTDOWN from any state, and SHUTDOWN is terminal until manual reset:
under every subsequent sequence of reported inputs — order successes,
healthy-metric reports, demanded levels, elapsed cooldown seconds — the
state is unchanged and `evaluateCycle` entry stays blocked for every
confidence value. -/
theorem breaker_shutdown_terminal (s : BreakerState) :
    (applyFailures 10 s).level = BLevel.shutdown ∧
    (s.level = BLevel.shutdown →
      ∀ inputs : List BreakerInput,
        breakerRun s inputs = s ∧
        ∀ conf : ℚ, entryAllowed (breakerRun s inputs) conf = false) := by
  constructor
  · exact applyFailures_shutdown 10 s (by omega) (by omega)
  · intro h inputs
    have hr := breakerRun_frozen inputs s h
    refine ⟨hr, fun conf => ?_⟩
    rw [hr]
    simp [entryAllowed, h]

theorem breaker_shutdown_terminal_witness :
    (applyFailures 10 ⟨BLevel.closed, 0, 0⟩).level = BLevel.shutdown ∧
    breakerRun ⟨BLevel.shutdown, 10, 0⟩
        [BreakerInput.healthyTick 100000, BreakerInput.orderSuccess,
          BreakerInput.demand BLevel.closed] =
      ⟨BLevel.shutdown, 10, 0⟩ ∧
    entryAllowed
        (breakerRun ⟨BLevel.shutdown, 10, 0⟩
          [BreakerInput.healthyTick 100000, BreakerInput.orderSuccess,
            BreakerInput.demand BLevel.closed]) (95 / 100) = false :=
  ⟨(breaker_shutdown_terminal ⟨BLevel.closed, 0, 0⟩).1,
   ((breaker_shutdown_terminal ⟨BLevel.shutdown, 10, 0⟩).2 rfl
      [BreakerInput.healthyTick 100000, BreakerInput.orderSuccess,
        BreakerInput.demand BLevel.closed]).1,
   ((breaker_shutdown_terminal ⟨BLevel.shutdown, 10, 0⟩).2 rfl
      [BreakerInput.healthyTick 100000, BreakerInput.orderSuccess,
        BreakerInput.demand BLevel.closed]).2 (95 / 100)⟩

end Sigma

namespace WS

theorem runEvents_closes_bound (n : ℕ) :
    ∀ s : WSState,
      (runEvents s (List.replicate n WSEvent.onClose)).2 +
        min maxReconnectAttempts s.reconnectAttempts ≤ maxReconnectAttempts := by
  induction n with
  | zero =>
      intro s
      simp [runEvents]
  | succ n ih =>
      intro s
      rw [List.replicate_succ]
      by_cases hg : s.shouldReconnect = true ∧
          s.reconnectAttempts < maxReconnectAttempts
      · have hstep := ih ⟨s.reconnectAttempts + 1, true⟩
        have ha : s.reconnectAttempts < maxReconnectAttempts := hg.2
        simp [runEvents, stepEvent, hg]
        simp only [maxReconnectAttempts] at hstep ha ⊢
        omega
      · have hstep := ih s
        simp [runEvents, stepEvent, hg]
        simp only [maxReconnectAttempts] at hstep ⊢
        omega

theorem disconnected_no_reconnect (evs : List WSEvent) :
    ∀ s : WSState, s.shouldReconnect = false →
      (runEvents s evs).2 = 0 ∧ (runEvents s evs).1.shouldReconnect = false := by
  induction evs with
  | nil => intro s h; exact ⟨rfl, h⟩
  | cons e es ih =>
      intro s h
      cases e with
      | onOpen =>
          have hrest := ih ⟨0, s.shouldReconnect⟩ h
          simp only [runEvents, stepEvent]
          exact ⟨by simpa using hrest.1, hrest.2⟩
      | onClose =>
          have hcond : ¬(s.shouldReconnect = true ∧
              s.reconnectAttempts < maxReconnectAttempts) := by
            simp [h]
          have hrest := ih s h
          simp only [runEvents, stepEvent]
          simp only [if_neg hcond]
          exact ⟨by simpa using hrest.1, hrest.2⟩

/-- C10: the frontend WebSocketService schedules at most
`maxReconnectAttempts = 5` consecutive automatic reconnections: the
onclose handler schedules `connect()` exactly when `shouldReconnect` is
set and `reconnectAttempts < 5`, a successful open resets
`reconnectAttempts` to 0, any run of consecutive close events schedules
at most 5 reconnects, and after an explicit `disconnect()` no event
sequence ever schedules a reconnect — the reconnection process
terminates. -/
theorem reconnect_bounded (s : WSState) :
    ((stepEvent s WSEvent.onClose).2 = true ↔
      s.shouldReconnect = true ∧ s.reconnectAttempts < maxReconnectAttempts) ∧
    (stepEvent s WSEvent.onOpen).1.reconnectAttempts = 0 ∧
    (∀ n : ℕ,
      (runEvents s (List.replicate n WSEvent.onClose)).2 ≤ maxReconnectAttempts) ∧
    (∀ evs : List WSEvent, (runEvents (disconnect s) evs).2 = 0) := by
  refine ⟨?_, rfl, ?_, ?_⟩
  · unfold stepEvent
    split_ifs with hg <;> simp [hg]
  · intro n
    have := runEvents_closes_bound n s
    omega
  · intro evs
    exact (disconnected_no_reconnect evs (disconnect s) rfl).1

theorem reconnect_bounded_witness :
    ((stepEvent initialState WSEvent.onClose).2 = true ↔
      initialState.shouldReconnect = true ∧
        initialState.reconnectAttempts < maxReconnectAttempts) ∧
    (stepEvent initialState WSEvent.onOpen).1.reconnectAttempts = 0 ∧
    (runEvents initialState (List.replicate 9 WSEvent.onClose)).2 ≤
      maxReconnectAttempts ∧
    (runEvents (disconnect initialState)
        [WSEvent.onClose, WSEvent.onOpen, WSEvent.onClose]).2 = 0 :=
  ⟨(reconnect_bounded initialState).1,
   (reconnect_bounded initialState).2.1,
   (reconnect_bounded initialState).2.2.1 9,
   (reconnect_bounded initialState).2.2.2
     [WSEvent.onClose, WSEvent.onOpen, WSEvent.onClose]⟩

end WS
